import Mathlib

/-!
Verification of the placeholder-substitution engine of `report_generator.py`.

The Python source is shallowly embedded:
* the filesystem test `os.path.isfile` is an explicit parameter `fs : String → Bool`;
* Python dicts (insertion ordered, last-write-wins update in place) are association
  lists with an `dinsert` that updates in place or appends;
* the regex `\{\{(.*?)\}\}` with `re.DOTALL`, applied through `re.sub` with a
  replacement callback, is modelled character by character: the leftmost `{{` is
  found, then the shortest stretch up to the next `}}` (lazy matching), and the
  callback's result is spliced in verbatim while scanning resumes after the match;
* slide state (shape tree mutation by `add_picture` and element removal) is passed
  explicitly through the substitution callbacks.
-/

set_option maxRecDepth 4000

namespace ReportGenerator

/-! ### Python dictionaries as insertion-ordered association lists -/

/-- Python dict update `d[k] = v`: if the key is present the value is updated in
place (position in the iteration order preserved), otherwise the pair is appended. -/
def dinsert {κ : Type} [BEq κ] (k : κ) (v : String) (d : List (κ × String)) :
    List (κ × String) :=
  if d.any (fun p => p.1 == k) then
    d.map (fun p => if p.1 == k then (k, v) else p)
  else
    d ++ [(k, v)]

/-- Python `d.get(k)`: value of the (unique) entry for `k`, if any. -/
def dget {κ : Type} [BEq κ] (d : List (κ × String)) (k : κ) : Option String :=
  (d.find? (fun p => p.1 == k)).map Prod.snd

/-! ### Python primitives used by the loader -/

/-- Characters stripped by Python `str.strip()` (ASCII fragment). -/
def isPySpace (c : Char) : Bool :=
  c == ' ' || c == '\t' || c == '\n' || c == '\r' || c == '\x0b' || c == '\x0c'

/-- Python `str.strip()`: whitespace removed from both ends. -/
def pyStripList (cs : List Char) : List Char :=
  ((cs.dropWhile isPySpace).reverse.dropWhile isPySpace).reverse

/-- Python `str.strip()` on a `String`. -/
def pyStrip (s : String) : String := String.mk (pyStripList s.data)

/-- Python `str.isdigit()` for ASCII strings: nonempty and all decimal digits. -/
def isdigitStr (s : String) : Bool := !s.isEmpty && s.data.all Char.isDigit

/-- Numeric value of a digits-only string, as computed by Python `int(...)`. -/
def digitsToNat (s : String) : Nat :=
  s.data.foldl (fun n c => 10 * n + (c.toNat - '0'.toNat)) 0

/-- Python `int(s)` on a string: strip whitespace, optional sign, digits; `none`
models the `ValueError` raised on anything else. -/
def pyInt? (s : String) : Option Int :=
  match (pyStrip s).data with
  | '-' :: ds => if ds ≠ [] ∧ ds.all Char.isDigit then
      some (-(digitsToNat (String.mk ds) : Int)) else none
  | '+' :: ds => if ds ≠ [] ∧ ds.all Char.isDigit then
      some (digitsToNat (String.mk ds) : Int) else none
  | ds => if ds ≠ [] ∧ ds.all Char.isDigit then
      some (digitsToNat (String.mk ds) : Int) else none

/-! ### `load_slide_data` -/

/-- One CSV row as seen by the loader: the raw `slide_num` cell, the
`placeholder` cell, and the `value` cell (`none` models a pandas NaN /
missing value). -/
structure RawRow where
  slide_num : String
  placeholder : String
  value : Option String
deriving DecidableEq, Repr

/-- `value = str(row['value']) if not pd.isnull(row['value']) else ''`. -/
def rowVal (r : RawRow) : String := r.value.getD ""

/-- The `SlideData` dataclass: slide number, `content` dict (placeholder name to
value) and `images` dict (integer placeholder index to image path). -/
structure SlideData where
  slide_num : Int
  content : List (String × String)
  images : List (Nat × String)
deriving DecidableEq, Repr

/-- Fresh `SlideData(slide_num=slide_num)` with empty dicts. -/
def newRec (sn : Int) : SlideData := { slide_num := sn, content := [], images := [] }

/-- Loop body of `load_slide_data` acting on one row's record:
`if os.path.isfile(value) and placeholder.isdigit(): images[int(placeholder)] = value`
followed by `content[placeholder] = value`. -/
def updRec (fs : String → Bool) (ph val : String) (rec : SlideData) : SlideData :=
  let rec1 := if fs val && isdigitStr ph then
      { rec with images := dinsert (digitsToNat ph) val rec.images } else rec
  { rec1 with content := dinsert ph val rec1.content }

/-- One row's effect on the accumulated `slide_data_dict` (kept as an
insertion-ordered list of records): create the record for `sn` if absent, then
update it with the row's placeholder and value. -/
def stepAcc (fs : String → Bool) (sn : Int) (ph val : String)
    (acc : List SlideData) : List SlideData :=
  let acc1 := if acc.any (fun d => d.slide_num == sn) then acc else acc ++ [newRec sn]
  acc1.map (fun d => if d.slide_num == sn then updRec fs ph val d else d)

/-- The row loop of `load_slide_data`; `Except.error` models the uncaught
`ValueError` from `int(row['slide_num'])`, carrying the offending cell.  The
error aborts the run before any document mutation: no record list is produced. -/
def loadGo (fs : String → Bool) : List RawRow → List SlideData →
    Except String (List SlideData)
  | [], acc => .ok acc
  | r :: rs, acc =>
    match pyInt? r.slide_num with
    | none => .error r.slide_num
    | some sn => loadGo fs rs (stepAcc fs sn r.placeholder (rowVal r) acc)

/-- `load_slide_data`: fold the rows in file order into per-slide records and
return `list(slide_data_dict.values())` (first-seen slide order). -/
def load_slide_data (fs : String → Bool) (rows : List RawRow) :
    Except String (List SlideData) :=
  loadGo fs rows []

/-! ### The token pattern as a scanner

`re.compile(r'\{\{(.*?)\}\}', re.DOTALL)` used through `pattern.sub(callback, text)`:
the engine finds the leftmost `{{`, then (lazy `.*?`, with `.` matching newlines)
the shortest inner stretch up to the next `}}`; the callback's return value is
inserted verbatim and scanning resumes right after the match. -/

/-- Lazy search for the closing `}}`: splits off the shortest (possibly empty)
inner stretch before the first `}}`, returning it with the remainder after the
`}}`; `none` when no `}}` occurs. -/
def scanClose : List Char → Option (List Char × List Char)
  | [] => none
  | '}' :: '}' :: rest => some ([], rest)
  | c :: rest => (scanClose rest).map (fun p => (c :: p.1, p.2))

/-- Leftmost match of the token pattern: splits the input into the text before
the match, the captured inner text, and the remainder after the match.  `none`
when the pattern does not match (no `{{`, or no `}}` after the first `{{`, in
which case no later start position can match either). -/
def scanOpen : List Char → Option (List Char × List Char × List Char)
  | [] => none
  | '{' :: '{' :: rest =>
    match scanClose rest with
    | some p => some ([], p.1, p.2)
    | none => none
  | c :: rest => (scanOpen rest).map (fun t => (c :: t.1, t.2.1, t.2.2))

/-- `pattern.sub(callback, text)` with a stateful callback receiving
`match.group(0)` (the raw token, braces included) and `match.group(1)` (the
inner text).  The fuel argument bounds the number of matches; every match
consumes at least four characters, so `length + 1` fuel can never run out. -/
def subTokensF {σ : Type} (repl : σ → String → String → σ × String) :
    Nat → σ → List Char → σ × List Char
  | 0, st, s => (st, s)
  | fuel + 1, st, s =>
    match scanOpen s with
    | none => (st, s)
    | some (pre, inner, rest) =>
      let raw := String.mk ('{' :: '{' :: (inner ++ ['}', '}']))
      let r1 := repl st raw (String.mk inner)
      let r2 := subTokensF repl fuel r1.1 rest
      (r2.1, pre ++ (r1.2.data ++ r2.2))

/-! ### Shapes and the slide's shape tree -/

/-- A shape as the engine sees it: identity, geometry, and whether it is a
picture produced by `add_picture` (with its image path). -/
structure Shape where
  id : Nat
  left : Int
  top : Int
  width : Int
  height : Int
  isPicture : Bool
  imagePath : Option String
deriving DecidableEq, Repr

/-- The slide's shape tree plus a supply of fresh shape identities. -/
structure SlideSt where
  shapes : List Shape
  nextId : Nat
deriving DecidableEq, Repr

/-- The picture shape created by `add_picture`. -/
def mkPicture (nid : Nat) (path : String) (l t w h : Int) : Shape :=
  { id := nid, left := l, top := t, width := w, height := h,
    isPicture := true, imagePath := some path }

/-- `slide.shapes.add_picture(image_path, left, top, width, height)`: the new
picture element is appended to the shape tree. -/
def add_picture (st : SlideSt) (path : String) (l t w h : Int) : SlideSt :=
  { shapes := st.shapes ++ [mkPicture st.nextId path l t w h], nextId := st.nextId + 1 }

/-- `shape.element.getparent().remove(shape.element)`: remove that element
(the first — and under distinct identities the only — shape with this id). -/
def removeShape (st : SlideSt) (sid : Nat) : SlideSt :=
  { st with shapes := st.shapes.eraseP (fun x => x.id == sid) }

/-- `_replace_image_placeholder`: read the original geometry, append a picture
with exactly that geometry, then remove the original element. -/
def replace_image_placeholder (st : SlideSt) (sh : Shape) (path : String) : SlideSt :=
  removeShape (add_picture st path sh.left sh.top sh.width sh.height) sh.id

/-! ### `_replace_text_or_image` -/

/-- `self.image_extensions = ('.png', '.jpg', '.jpeg', '.gif')`. -/
def image_extensions : List String := [".png", ".jpg", ".jpeg", ".gif"]

/-- Python `str.lower()` (ASCII). -/
def strToLower (s : String) : String := String.mk (s.data.map Char.toLower)

/-- Python `str.endswith`. -/
def strEndsWith (s suffix : String) : Bool := suffix.data.isSuffixOf s.data

/-- `any(placeholder.lower().endswith(ext) for ext in self.image_extensions)`. -/
def hasImageExt (ph : String) : Bool :=
  image_extensions.any (fun ext => strEndsWith (strToLower ph) ext)

/-- `_replace_text_or_image`: trim the inner name; on an image-extension name
resolve `content.get(placeholder, match.group(0))` as a path, swap the owning
shape and yield `""` when the path is a file and yield the raw token otherwise;
on any other name yield the mapped value or the raw token. -/
def replace_text_or_image (fs : String → Bool) (content : List (String × String))
    (sh : Shape) (st : SlideSt) (raw inner : String) : SlideSt × String :=
  let placeholder := pyStrip inner
  if hasImageExt placeholder then
    let image_path := (dget content placeholder).getD raw
    if fs image_path then
      (replace_image_placeholder st sh image_path, "")
    else
      (st, raw)
  else
    (st, (dget content placeholder).getD raw)

/-- The `pattern.sub` call of `_replace_text_placeholders` on one run's text. -/
def subRunText (fs : String → Bool) (content : List (String × String)) (sh : Shape)
    (st : SlideSt) (text : String) : SlideSt × String :=
  let r := subTokensF (replace_text_or_image fs content sh) (text.data.length + 1)
    st text.data
  (r.1, String.mk r.2)

/-! ### `_replace_table_placeholder` -/

/-- `_replace_text`: the literal-only replacement used for table cells. -/
def replace_text (content : List (String × String)) (raw inner : String) : String :=
  (dget content (pyStrip inner)).getD raw

/-- The `pattern.sub` call of `_replace_table_placeholder` on one cell run. -/
def subCellText (content : List (String × String)) (text : String) : String :=
  String.mk (subTokensF
    (fun (u : Unit) raw inner => (u, replace_text content raw inner))
    (text.data.length + 1) () text.data).2

/-- A table cell's text frame: paragraphs, each a list of run texts. -/
abbrev Cell := List (List String)

/-- `_replace_table_placeholder` on the shape's table: every row, every cell,
every paragraph, every run gets the literal substitution. -/
def replace_table_placeholder (content : List (String × String))
    (tbl : List (List Cell)) : List (List Cell) :=
  tbl.map (fun row => row.map (fun cell =>
    cell.map (fun para => para.map (fun runText => subCellText content runText))))

/-- The dispatch `if shape.has_table: self._replace_table_placeholder(shape,
content)` in `replace_placeholders`: the method receives no slide reference,
so the slide state passes through unchanged. -/
def processTableShape (st : SlideSt) (content : List (String × String))
    (tbl : List (List Cell)) : SlideSt × List (List Cell) :=
  (st, replace_table_placeholder content tbl)

/-! ### `_identify_and_replace_hyperlink` -/

/-- A text run: its text and its inline hyperlink address
(`run.hyperlink.address`, `none` for no hyperlink). -/
structure Run where
  text : String
  hlAddress : Option String
deriving DecidableEq, Repr

/-- A shape carrying a text frame: its underlying tree entry and geometry
(`base`), whether its click action is of hyperlink type
(`shape.click_action.action == PP_ACTION.HYPERLINK`), the click-action
hyperlink address, and the text frame's paragraphs of runs. -/
structure TextShape where
  base : Shape
  clickIsHyperlink : Bool
  clickAddress : Option String
  paragraphs : List (List Run)
deriving DecidableEq, Repr

/-- Concatenated run texts of one paragraph. -/
def joinRuns (p : List Run) : List Char := (p.map (fun r => r.text.data)).flatten

/-- `shape.text`: the paragraph texts joined with newlines. -/
def shapeTextData : List (List Run) → List Char
  | [] => []
  | [p] => joinRuns p
  | p :: ps => joinRuns p ++ '\n' :: shapeTextData ps

/-- Python `needle in hay` substring test. -/
def containsSub (needle : List Char) : List Char → Bool
  | [] => needle.isEmpty
  | c :: t => needle.isPrefixOf (c :: t) || containsSub needle t

/-- Assigning to a python-pptx hyperlink `address`: the existing link element
is removed and a new one is added only for a truthy (nonempty) url. -/
def setAddr (url : String) : Option String := if url.isEmpty then none else some url

/-- Truthiness of `run.hyperlink.address` (`None` and `""` are falsy). -/
def addrTruthy : Option String → Bool
  | none => false
  | some a => !a.isEmpty

/-- `if run.hyperlink.address: run.hyperlink.address = new_link`. -/
def rewriteRun (newLink : String) (r : Run) : Run :=
  if addrTruthy r.hlAddress then { r with hlAddress := setAddr newLink } else r

/-- Body of the `for content_key, new_link in content.items()` loop of
`_identify_and_replace_hyperlink` for one `(key, link)` pair, given the shape
text computed before the loop: when the key occurs in the text, set the
shape-level click-action address (if the click action is a hyperlink) and
rewrite every run whose inline address is truthy. -/
def hlStep (text : List Char) (sh : TextShape) (kv : String × String) : TextShape :=
  if containsSub kv.1.data text then
    let sh1 := if sh.clickIsHyperlink then { sh with clickAddress := setAddr kv.2 }
      else sh
    { sh1 with paragraphs := sh1.paragraphs.map (fun p => p.map (rewriteRun kv.2)) }
  else sh

/-- `_identify_and_replace_hyperlink`: compute `shape.text` once, then fold the
content pairs in dict (insertion) order. -/
def identify_and_replace_hyperlink (content : List (String × String))
    (sh : TextShape) : TextShape :=
  content.foldl (hlStep (shapeTextData sh.paragraphs)) sh

/-! ### `_replace_text_placeholders` -/

/-- In-place update of one list position (python-pptx runs are live views). -/
def listModify {α : Type} (f : α → α) : Nat → List α → List α
  | _, [] => []
  | 0, a :: t => f a :: t
  | n + 1, a :: t => a :: listModify f n t

/-- Text of the run at paragraph `i`, run `j`. -/
def getRunText (pss : List (List Run)) (i j : Nat) : String :=
  match pss.get? i with
  | some p =>
    match p.get? j with
    | some r => r.text
    | none => ""
  | none => ""

/-- `run.text = new_text` at paragraph `i`, run `j`. -/
def setRunTextAt (i j : Nat) (t : String) (pss : List (List Run)) :
    List (List Run) :=
  listModify (fun p => listModify (fun r => { r with text := t }) j p) i pss

/-- Iteration order of `for paragraph in text_frame.paragraphs: for run in
paragraph.runs`, as (paragraph, run) index pairs; the loop bounds are fixed at
entry (substitution never changes the number of paragraphs or runs). -/
def runIndicesAux : Nat → List (List Run) → List (Nat × Nat)
  | _, [] => []
  | i, p :: ps => ((List.range p.length).map (fun j => (i, j))) ++ runIndicesAux (i + 1) ps

/-- All (paragraph, run) index pairs of a text frame, in loop order. -/
def runIndices (pss : List (List Run)) : List (Nat × Nat) := runIndicesAux 0 pss

/-- One iteration of the run loop of `_replace_text_placeholders`: substitute
the current run's text (threading the slide state through the callback), write
the new text back, then call `_identify_and_replace_hyperlink` on the shape.
The final component counts those hyperlink calls. -/
def stepRun (fs : String → Bool) (content : List (String × String))
    (acc : SlideSt × TextShape × Nat) (ij : Nat × Nat) : SlideSt × TextShape × Nat :=
  let cur := getRunText acc.2.1.paragraphs ij.1 ij.2
  let res := subRunText fs content acc.2.1.base acc.1 cur
  let sh1 := { acc.2.1 with paragraphs := setRunTextAt ij.1 ij.2 res.2 acc.2.1.paragraphs }
  let sh2 := identify_and_replace_hyperlink content sh1
  (res.1, sh2, acc.2.2 + 1)

/-- `_replace_text_placeholders`: the run loop over all paragraphs.  Returns the
final slide state, the shape after all text and hyperlink rewrites, and how
many times `_identify_and_replace_hyperlink` ran (one call per run iteration,
as in the source loop). -/
def replace_text_placeholders (fs : String → Bool) (content : List (String × String))
    (st : SlideSt) (sh : TextShape) : SlideSt × TextShape × Nat :=
  (runIndices sh.paragraphs).foldl (stepRun fs content) (st, sh, 0)

/-! ### Specification-side descriptions of the loader's results -/

/-- The record for slide `s` among the loaded records. -/
def recAt (recs : List SlideData) (s : Int) : Option SlideData :=
  recs.find? (fun d => d.slide_num == s)

/-- Whether a row belongs to slide `s` (its `slide_num` cell parses to `s`). -/
def rowOnSlide (s : Int) (r : RawRow) : Bool := pyInt? r.slide_num == some s

/-- The effect of all rows for slide `s`, in file order, on one record. -/
def foldRec (fs : String → Bool) (s : Int) (rows : List RawRow) (rec : SlideData) :
    SlideData :=
  rows.foldl (fun cur r =>
    if rowOnSlide s r then updRec fs r.placeholder (rowVal r) cur else cur) rec

/-- The value of the last row for `(s, p)`: what last-write-wins loading puts
into `content[p]` of slide `s`. -/
def lastContent (rows : List RawRow) (s : Int) (p : String) : Option String :=
  (rows.reverse.find? (fun r => rowOnSlide s r && (r.placeholder == p))).map rowVal

/-- Whether a row writes `images[k]` of slide `s`: it is on slide `s`, its value
is a file on disk, its placeholder is digits-only, and that placeholder's
numeric value is `k`. -/
def imgPred (fs : String → Bool) (s : Int) (k : Nat) (r : RawRow) : Bool :=
  rowOnSlide s r && ((fs (rowVal r) && isdigitStr r.placeholder)
    && (digitsToNat r.placeholder == k))

/-- The path of the last row that writes `images[k]` of slide `s`. -/
def lastImage (fs : String → Bool) (rows : List RawRow) (s : Int) (k : Nat) :
    Option String :=
  (rows.reverse.find? (imgPred fs s k)).map rowVal

/-- The distinct parsed slide numbers in first-seen input order. -/
def seenSlides (rows : List RawRow) : List Int :=
  rows.foldl (fun l r =>
    match pyInt? r.slide_num with
    | some sn => if l.any (fun x => x == sn) then l else l ++ [sn]
    | none => l) []

/-- The last content pair whose key occurs in the shape text. -/
def lastMatch (content : List (String × String)) (text : List Char) :
    Option (String × String) :=
  content.reverse.find? (fun kv => containsSub kv.1.data text)

/-- The hyperlink rewriter's intended final state for a winning value `v`:
the shape-level click-action address becomes `v` when the click action is a
hyperlink, and every run whose inline address was truthy gets address `v`;
texts and everything else are untouched. -/
def hlFinal (v : String) (sh : TextShape) : TextShape :=
  { sh with
    clickAddress := if sh.clickIsHyperlink then some v else sh.clickAddress,
    paragraphs := sh.paragraphs.map (fun p => p.map (fun r =>
      if addrTruthy r.hlAddress then { r with hlAddress := some v } else r)) }

end ReportGenerator

namespace ReportGenerator

example : load_slide_data (fun _ => false) [⟨"1", "k", none⟩] =
    .ok [{ slide_num := 1, content := [("k", "")], images := [] }] := rfl

example : load_slide_data (fun s => s == "/a.png")
    [⟨"1", "3", some "/a.png"⟩, ⟨"1", "3", some "/b.txt"⟩] =
    .ok [{ slide_num := 1, content := [("3", "/b.txt")], images := [(3, "/a.png")] }] := rfl

example : load_slide_data (fun _ => false) [⟨"abc", "k", some "v"⟩] = .error "abc" := rfl

example : load_slide_data (fun _ => false)
    [⟨"2", "a", some "x"⟩, ⟨"1", "b", some "y"⟩, ⟨"2", "c", some "z"⟩] =
    .ok [{ slide_num := 2, content := [("a", "x"), ("c", "z")], images := [] },
         { slide_num := 1, content := [("b", "y")], images := [] }] := rfl

end ReportGenerator

namespace ReportGenerator

example : subCellText [("name", "Alice")] "Hello {{name}}!" = "Hello Alice!" := rfl

example : subCellText [] "Hi {{missing}}" = "Hi {{missing}}" := rfl

example :
    subRunText (fun _ => false) [] ⟨0, 1, 2, 3, 4, false, none⟩ ⟨[], 5⟩ "Hi {{missing}}" =
    (⟨[], 5⟩, "Hi {{missing}}") := rfl

example :
    subRunText (fun p => p == "/tmp/exists.png") [("photo.png", "/tmp/exists.png")]
      ⟨0, 1, 2, 3, 4, false, none⟩ ⟨[⟨0, 1, 2, 3, 4, false, none⟩], 5⟩ "{{photo.png}}" =
    (⟨[⟨5, 1, 2, 3, 4, true, some "/tmp/exists.png"⟩], 6⟩, "") := rfl

example :
    subRunText (fun _ => false) [("photo.png", "/tmp/exists.png")]
      ⟨0, 1, 2, 3, 4, false, none⟩ ⟨[⟨0, 1, 2, 3, 4, false, none⟩], 5⟩ "{{photo.png}}" =
    (⟨[⟨0, 1, 2, 3, 4, false, none⟩], 5⟩, "{{photo.png}}") := rfl

example :
    subRunText (fun p => p == "{{photo.png}}") [] ⟨0, 1, 2, 3, 4, false, none⟩
      ⟨[⟨0, 1, 2, 3, 4, false, none⟩], 5⟩ "{{photo.png}}" =
    (⟨[⟨5, 1, 2, 3, 4, true, some "{{photo.png}}"⟩], 6⟩, "") := rfl

example : subCellText [("a", "X")] "{{ a }} {{a}}{{b}}" = "X X{{b}}" := rfl

example :
    (replace_text_placeholders (fun _ => false) [] ⟨[], 0⟩
      ⟨⟨0, 0, 0, 0, 0, false, none⟩, false, none, [[⟨"x", none⟩, ⟨"y", none⟩]]⟩).2.2 = 2 := rfl

example :
    identify_and_replace_hyperlink [("a", ""), ("b", "X")]
      ⟨⟨0, 0, 0, 0, 0, false, none⟩, false, none, [[⟨"ab", some "http://old"⟩]]⟩ =
    ⟨⟨0, 0, 0, 0, 0, false, none⟩, false, none, [[⟨"ab", none⟩]]⟩ := rfl

example :
    identify_and_replace_hyperlink [("a", "L1"), ("b", "L2")]
      ⟨⟨0, 0, 0, 0, 0, false, none⟩, true, some "orig", [[⟨"ab", some "http://old"⟩, ⟨"c", none⟩]]⟩ =
    ⟨⟨0, 0, 0, 0, 0, false, none⟩, true, some "L2", [[⟨"ab", some "L2"⟩, ⟨"c", none⟩]]⟩ := rfl

end ReportGenerator

namespace ReportGenerator

/-! ### Dictionary lemmas -/

theorem dget_cons_ne {κ : Type} [BEq κ] {a k : κ} (h : (a == k) = false) (b : String)
    (d : List (κ × String)) : dget ((a, b) :: d) k = dget d k := by
  simp [dget, List.find?, h]

theorem dinsert_cons_ne {κ : Type} [BEq κ] {a k : κ} (h : (a == k) = false)
    (b v : String) (d : List (κ × String)) :
    dinsert k v ((a, b) :: d) = (a, b) :: dinsert k v d := by
  by_cases hd : d.any (fun p => p.1 == k) <;> simp [dinsert, h, hd]

theorem updMap_find_ne {κ : Type} [BEq κ] [LawfulBEq κ] {k k' : κ}
    (h : (k' == k) = false) (v : String) (d : List (κ × String)) :
    (d.map (fun p => if p.1 == k' then (k', v) else p)).find? (fun p => p.1 == k)
      = d.find? (fun p => p.1 == k) := by
  induction d with
  | nil => simp
  | cons p t ih =>
    obtain ⟨a, b⟩ := p
    by_cases ha : (a == k') = true
    · have ha' : a = k' := eq_of_beq ha
      subst ha'
      simp [List.find?, h, ih]
    · simp only [List.map_cons, ha, Bool.false_eq_true, if_false]
      by_cases hk : (a == k) = true
      · simp [List.find?, hk]
      · simp [List.find?, hk, ih]

theorem dget_dinsert_self {κ : Type} [BEq κ] [LawfulBEq κ] (k : κ) (v : String)
    (d : List (κ × String)) : dget (dinsert k v d) k = some v := by
  induction d with
  | nil => simp [dinsert, dget, List.find?]
  | cons p t ih =>
    obtain ⟨a, b⟩ := p
    by_cases ha : (a == k) = true
    · have ha' : a = k := eq_of_beq ha
      subst ha'
      simp [dinsert, dget, List.find?]
    · have ha' : (a == k) = false := by simpa using ha
      rw [dinsert_cons_ne ha', dget_cons_ne ha']
      exact ih

theorem dget_dinsert_ne {κ : Type} [BEq κ] [LawfulBEq κ] {k k' : κ}
    (h : (k' == k) = false) (v : String) (d : List (κ × String)) :
    dget (dinsert k' v d) k = dget d k := by
  induction d with
  | nil => simp [dinsert, dget, List.find?, h]
  | cons p t ih =>
    obtain ⟨a, b⟩ := p
    by_cases ha : (a == k') = true
    · have ha' : a = k' := eq_of_beq ha
      subst ha'
      simp [dinsert, dget, List.find?, h, updMap_find_ne h v t]
    · have ha' : (a == k') = false := by simpa using ha
      rw [dinsert_cons_ne ha']
      by_cases hk : (a == k) = true
      · simp [dget, List.find?, hk]
      · have hk' : (a == k) = false := by simpa using hk
        rw [dget_cons_ne hk', dget_cons_ne hk']
        exact ih

end ReportGenerator

namespace ReportGenerator

/-! ### Record and accumulator lemmas -/

theorem slide_num_updRec (fs : String → Bool) (ph val : String) (d : SlideData) :
    (updRec fs ph val d).slide_num = d.slide_num := by
  unfold updRec
  split <;> rfl

theorem content_updRec (fs : String → Bool) (ph val : String) (d : SlideData) :
    (updRec fs ph val d).content = dinsert ph val d.content := by
  unfold updRec
  split <;> rfl

theorem images_updRec (fs : String → Bool) (ph val : String) (d : SlideData) :
    (updRec fs ph val d).images =
      if fs val && isdigitStr ph then dinsert (digitsToNat ph) val d.images
      else d.images := by
  unfold updRec
  split <;> simp_all

theorem recAt_map_pres (f : SlideData → SlideData)
    (hf : ∀ d, (f d).slide_num = d.slide_num) (l : List SlideData) (s : Int) :
    recAt (l.map f) s = (recAt l s).map f := by
  induction l with
  | nil => rfl
  | cons d t ih =>
    cases hd : (d.slide_num == s) <;>
      simp [recAt, List.find?, hf, hd] <;>
      simpa [recAt] using ih

theorem recAt_some_slide {recs : List SlideData} {s : Int} {rec : SlideData}
    (h : recAt recs s = some rec) : rec.slide_num = s := by
  unfold recAt at h
  have hp := List.find?_some h
  exact eq_of_beq hp

theorem recAt_append_ne {acc : List SlideData} {sn s : Int} (h : (sn == s) = false) :
    recAt (acc ++ [newRec sn]) s = recAt acc s := by
  simp [recAt, List.find?_append, List.find?, newRec, h]

theorem recAt_append_self {acc : List SlideData} {sn : Int} (h : recAt acc sn = none) :
    recAt (acc ++ [newRec sn]) sn = some (newRec sn) := by
  unfold recAt at h ⊢
  simp [List.find?_append, List.find?, newRec, h]

theorem any_slide_isSome (acc : List SlideData) (sn : Int) :
    acc.any (fun d => d.slide_num == sn) = (recAt acc sn).isSome := by
  induction acc with
  | nil => rfl
  | cons d t ih =>
    cases hd : (d.slide_num == sn) <;>
      simp [recAt, List.find?, hd] <;>
      simpa [recAt] using ih

theorem recAt_stepAcc_ne (fs : String → Bool) (sn : Int) (ph val : String)
    {s : Int} (h : s ≠ sn) (acc : List SlideData) :
    recAt (stepAcc fs sn ph val acc) s = recAt acc s := by
  have hsn : (sn == s) = false := beq_eq_false_iff_ne.mpr (Ne.symm h)
  have hf : ∀ d : SlideData,
      ((if d.slide_num == sn then updRec fs ph val d else d) : SlideData).slide_num
        = d.slide_num := by
    intro d
    cases hd : (d.slide_num == sn) <;> simp [hd, slide_num_updRec]
  have hmap : ∀ l : List SlideData,
      recAt (l.map (fun d => if d.slide_num == sn then updRec fs ph val d else d)) s
        = (recAt l s).map (fun d => if d.slide_num == sn then updRec fs ph val d else d) :=
    fun l => recAt_map_pres _ hf l s
  have hfix : (recAt acc s).map
      (fun d => if d.slide_num == sn then updRec fs ph val d else d) = recAt acc s := by
    cases hr : recAt acc s
    · rfl
    · rename_i rec
      have hrs : rec.slide_num = s := recAt_some_slide hr
      have hne : (rec.slide_num == sn) = false := by
        rw [hrs]; exact beq_eq_false_iff_ne.mpr h
      simp only [Option.map_some', hne, Bool.false_eq_true, if_false]
  unfold stepAcc
  cases hany : acc.any (fun d => d.slide_num == sn)
  · simp only [hany, Bool.false_eq_true, if_false]
    rw [hmap, recAt_append_ne hsn, hfix]
  · simp only [hany, if_true]
    rw [hmap, hfix]

theorem recAt_stepAcc_self (fs : String → Bool) (sn : Int) (ph val : String)
    (acc : List SlideData) :
    recAt (stepAcc fs sn ph val acc) sn
      = some (updRec fs ph val ((recAt acc sn).getD (newRec sn))) := by
  have hf : ∀ d : SlideData,
      ((if d.slide_num == sn then updRec fs ph val d else d) : SlideData).slide_num
        = d.slide_num := by
    intro d
    cases hd : (d.slide_num == sn) <;> simp [hd, slide_num_updRec]
  have hmap : ∀ l : List SlideData,
      recAt (l.map (fun d => if d.slide_num == sn then updRec fs ph val d else d)) sn
        = (recAt l sn).map (fun d => if d.slide_num == sn then updRec fs ph val d else d) :=
    fun l => recAt_map_pres _ hf l sn
  unfold stepAcc
  cases hany : acc.any (fun d => d.slide_num == sn)
  · have hnone : recAt acc sn = none := by
      have hiso := any_slide_isSome acc sn
      rw [hany] at hiso
      cases hr : recAt acc sn
      · rfl
      · rw [hr] at hiso; simp at hiso
    simp only [hany, Bool.false_eq_true, if_false]
    rw [hmap, recAt_append_self hnone, hnone]
    simp [newRec]
  · have hsome : (recAt acc sn).isSome := by
      rw [← any_slide_isSome, hany]
    obtain ⟨rec, hr⟩ := Option.isSome_iff_exists.mp hsome
    have hrs : rec.slide_num = sn := recAt_some_slide hr
    simp only [hany, if_true]
    rw [hmap, hr]
    simp [hrs]

end ReportGenerator

namespace ReportGenerator

/-! ### The loader computes a per-slide fold -/

theorem foldRec_cons_pos {fs : String → Bool} {s : Int} {r : RawRow}
    (h : rowOnSlide s r = true) (rs : List RawRow) (rec : SlideData) :
    foldRec fs s (r :: rs) rec
      = foldRec fs s rs (updRec fs r.placeholder (rowVal r) rec) := by
  simp [foldRec, h]

theorem foldRec_cons_neg {fs : String → Bool} {s : Int} {r : RawRow}
    (h : rowOnSlide s r = false) (rs : List RawRow) (rec : SlideData) :
    foldRec fs s (r :: rs) rec = foldRec fs s rs rec := by
  simp [foldRec, h]

theorem loadGo_recAt (fs : String → Bool) (rows : List RawRow) :
    ∀ (acc recs : List SlideData), loadGo fs rows acc = .ok recs → ∀ s : Int,
      recAt recs s =
        match recAt acc s with
        | some rec => some (foldRec fs s rows rec)
        | none =>
          if rows.any (rowOnSlide s) then some (foldRec fs s rows (newRec s))
          else none := by
  induction rows with
  | nil =>
    intro acc recs h s
    simp only [loadGo, Except.ok.injEq] at h
    subst h
    cases hr : recAt acc s <;> simp [foldRec]
  | cons r rs ih =>
    intro acc recs h s
    cases hp : pyInt? r.slide_num with
    | none =>
      simp only [loadGo, hp] at h
      cases h
    | some sn =>
      simp only [loadGo, hp] at h
      have IH := ih _ recs h s
      by_cases hs : s = sn
      · subst hs
        have hrow : rowOnSlide s r = true := by simp [rowOnSlide, hp]
        rw [recAt_stepAcc_self] at IH
        cases hacc : recAt acc s
        · rw [hacc] at IH
          simp only [Option.getD_none] at IH
          rw [IH]
          simp [List.any_cons, hrow, foldRec_cons_pos hrow]
        · rename_i rec
          rw [hacc] at IH
          simp only [Option.getD_some] at IH
          rw [IH]
          simp [foldRec_cons_pos hrow]
      · have hrow : rowOnSlide s r = false := by
          simp only [rowOnSlide, hp]
          simp [beq_eq_false_iff_ne]
          exact fun h2 => hs h2.symm
        rw [recAt_stepAcc_ne fs sn _ _ hs] at IH
        rw [IH]
        cases hacc : recAt acc s
        · simp [hacc, List.any_cons, hrow, foldRec_cons_neg hrow]
        · simp [hacc, foldRec_cons_neg hrow]

end ReportGenerator

namespace ReportGenerator

/-! ### Last-write-wins characterization -/

theorem option_some_or {α : Type} (a : α) (o : Option α) : (some a).or o = some a := rfl

theorem option_none_or {α : Type} (o : Option α) : (Option.none).or o = o := by
  cases o <;> rfl

theorem option_or_none {α : Type} (o : Option α) : o.or none = o := by
  cases o <;> rfl

theorem option_or_assoc {α : Type} (a b c : Option α) :
    (a.or b).or c = a.or (b.or c) := by
  cases a <;> rfl

theorem lastContent_cons (r : RawRow) (rs : List RawRow) (s : Int) (p : String) :
    lastContent (r :: rs) s p
      = (lastContent rs s p).or
          (if rowOnSlide s r && (r.placeholder == p) then some (rowVal r) else none) := by
  unfold lastContent
  rw [List.reverse_cons, List.find?_append]
  cases hf : rs.reverse.find? (fun r' => rowOnSlide s r' && (r'.placeholder == p))
  · cases hc : (rowOnSlide s r && (r.placeholder == p)) <;>
      simp [List.find?, hc, option_none_or]
  · simp [option_some_or]

theorem lastImage_cons (fs : String → Bool) (r : RawRow) (rs : List RawRow)
    (s : Int) (k : Nat) :
    lastImage fs (r :: rs) s k
      = (lastImage fs rs s k).or
          (if imgPred fs s k r then some (rowVal r) else none) := by
  unfold lastImage
  rw [List.reverse_cons, List.find?_append]
  cases hf : rs.reverse.find? (imgPred fs s k)
  · cases hc : imgPred fs s k r <;> simp [List.find?, hc, option_none_or]
  · simp [option_some_or]

theorem content_foldRec (fs : String → Bool) (s : Int) (p : String) :
    ∀ (rows : List RawRow) (rec : SlideData),
      dget (foldRec fs s rows rec).content p
        = (lastContent rows s p).or (dget rec.content p) := by
  intro rows
  induction rows with
  | nil =>
    intro rec
    simp [foldRec, lastContent, option_none_or]
  | cons r rs ih =>
    intro rec
    rw [lastContent_cons, option_or_assoc]
    cases hrow : rowOnSlide s r
    · rw [foldRec_cons_neg hrow, ih]
      simp [hrow, option_none_or]
    · rw [foldRec_cons_pos hrow, ih]
      cases hpp : (r.placeholder == p)
      · rw [content_updRec, dget_dinsert_ne hpp]
        simp [hrow, hpp, option_none_or]
      · have hp' : r.placeholder = p := eq_of_beq hpp
        rw [content_updRec, hp', dget_dinsert_self]
        simp [hrow, hpp, option_some_or]

theorem images_foldRec (fs : String → Bool) (s : Int) (k : Nat) :
    ∀ (rows : List RawRow) (rec : SlideData),
      dget (foldRec fs s rows rec).images k
        = (lastImage fs rows s k).or (dget rec.images k) := by
  intro rows
  induction rows with
  | nil =>
    intro rec
    simp [foldRec, lastImage, option_none_or]
  | cons r rs ih =>
    intro rec
    rw [lastImage_cons, option_or_assoc]
    cases hrow : rowOnSlide s r
    · rw [foldRec_cons_neg hrow, ih]
      simp [imgPred, hrow, option_none_or]
    · rw [foldRec_cons_pos hrow, ih]
      cases hc : (fs (rowVal r) && isdigitStr r.placeholder)
      · rw [images_updRec]
        simp [imgPred, hrow, hc, option_none_or]
      · cases hk : (digitsToNat r.placeholder == k)
        · rw [images_updRec]
          simp only [hc, if_true]
          rw [dget_dinsert_ne hk]
          simp [imgPred, hrow, hc, hk, option_none_or]
        · have hk' : digitsToNat r.placeholder = k := eq_of_beq hk
          rw [images_updRec]
          simp only [hc, if_true]
          rw [hk', dget_dinsert_self]
          simp [imgPred, hrow, hc, hk, option_some_or]

theorem recAt_nil (s : Int) : recAt [] s = none := rfl

theorem load_content_eq {fs : String → Bool} {rows : List RawRow}
    {recs : List SlideData} {s : Int} {rec : SlideData}
    (h : load_slide_data fs rows = .ok recs) (hr : recAt recs s = some rec)
    (p : String) : dget rec.content p = lastContent rows s p := by
  have hmain := loadGo_recAt fs rows [] recs h s
  rw [recAt_nil] at hmain
  simp only at hmain
  cases hany : rows.any (rowOnSlide s)
  · rw [hany] at hmain
    simp only [Bool.false_eq_true, if_false] at hmain
    rw [hr] at hmain
    cases hmain
  · rw [hany] at hmain
    simp only [if_true] at hmain
    rw [hr] at hmain
    have hrec : rec = foldRec fs s rows (newRec s) := by
      injection hmain
    rw [hrec, content_foldRec]
    simp [newRec, dget, List.find?, option_or_none]

theorem load_images_eq {fs : String → Bool} {rows : List RawRow}
    {recs : List SlideData} {s : Int} {rec : SlideData}
    (h : load_slide_data fs rows = .ok recs) (hr : recAt recs s = some rec)
    (k : Nat) : dget rec.images k = lastImage fs rows s k := by
  have hmain := loadGo_recAt fs rows [] recs h s
  rw [recAt_nil] at hmain
  simp only at hmain
  cases hany : rows.any (rowOnSlide s)
  · rw [hany] at hmain
    simp only [Bool.false_eq_true, if_false] at hmain
    rw [hr] at hmain
    cases hmain
  · rw [hany] at hmain
    simp only [if_true] at hmain
    rw [hr] at hmain
    have hrec : rec = foldRec fs s rows (newRec s) := by
      injection hmain
    rw [hrec, images_foldRec]
    simp [newRec, dget, List.find?, option_or_none]

end ReportGenerator

namespace ReportGenerator

/-! ### Slide order and load errors -/

theorem map_slide_stepAcc (fs : String → Bool) (sn : Int) (ph val : String)
    (acc : List SlideData) :
    (stepAcc fs sn ph val acc).map (fun d => d.slide_num)
      = if acc.any (fun d => d.slide_num == sn) then acc.map (fun d => d.slide_num)
        else acc.map (fun d => d.slide_num) ++ [sn] := by
  have hpt : ∀ d : SlideData,
      ((if d.slide_num == sn then updRec fs ph val d else d) : SlideData).slide_num
        = d.slide_num := by
    intro d
    cases hd : (d.slide_num == sn) <;> simp [hd, slide_num_updRec]
  have hmap : ∀ l : List SlideData,
      (l.map (fun d => if d.slide_num == sn then updRec fs ph val d else d)).map
          (fun d => d.slide_num)
        = l.map (fun d => d.slide_num) := by
    intro l
    induction l with
    | nil => rfl
    | cons d t ih => simp only [List.map_cons, hpt, ih]
  unfold stepAcc
  cases hany : acc.any (fun d => d.slide_num == sn)
  · simp only [hany, Bool.false_eq_true, if_false]
    rw [hmap (acc ++ [newRec sn]), List.map_append]
    rfl
  · simp only [hany, if_true]
    exact hmap acc

theorem any_slide_map (acc : List SlideData) (sn : Int) :
    acc.any (fun d => d.slide_num == sn)
      = (acc.map (fun d => d.slide_num)).any (fun x => x == sn) := by
  induction acc with
  | nil => rfl
  | cons d t ih => simp [ih]

theorem loadGo_slides (fs : String → Bool) (rows : List RawRow) :
    ∀ (acc recs : List SlideData), loadGo fs rows acc = .ok recs →
      recs.map (fun d => d.slide_num)
        = rows.foldl (fun l r =>
            match pyInt? r.slide_num with
            | some sn => if l.any (fun x => x == sn) then l else l ++ [sn]
            | none => l) (acc.map (fun d => d.slide_num)) := by
  induction rows with
  | nil =>
    intro acc recs h
    simp only [loadGo, Except.ok.injEq] at h
    subst h
    rfl
  | cons r rs ih =>
    intro acc recs h
    cases hp : pyInt? r.slide_num with
    | none =>
      simp only [loadGo, hp] at h
      cases h
    | some sn =>
      simp only [loadGo, hp] at h
      have IH := ih _ recs h
      rw [IH]
      simp only [List.foldl_cons, hp]
      congr 1
      rw [map_slide_stepAcc]
      rw [any_slide_map acc sn]

theorem load_slides_eq {fs : String → Bool} {rows : List RawRow}
    {recs : List SlideData} (h : load_slide_data fs rows = .ok recs) :
    recs.map (fun d => d.slide_num) = seenSlides rows := by
  have := loadGo_slides fs rows [] recs h
  simpa [seenSlides] using this

theorem loadGo_error (fs : String → Bool) :
    ∀ (rows : List RawRow), (∃ r ∈ rows, pyInt? r.slide_num = none) →
      ∀ acc, ∃ e, loadGo fs rows acc = .error e := by
  intro rows
  induction rows with
  | nil =>
    intro h
    exact absurd h (by simp)
  | cons r rs ih =>
    intro h acc
    cases hp : pyInt? r.slide_num with
    | none => exact ⟨r.slide_num, by simp [loadGo, hp]⟩
    | some sn =>
      have h' : ∃ r' ∈ rs, pyInt? r'.slide_num = none := by
        obtain ⟨r', hmem, hnone⟩ := h
        cases List.mem_cons.mp hmem with
        | inl heq =>
          subst heq
          rw [hp] at hnone
          cases hnone
        | inr hmem' => exact ⟨r', hmem', hnone⟩
      obtain ⟨e, he⟩ := ih h' (stepAcc fs sn r.placeholder (rowVal r) acc)
      exact ⟨e, by simp [loadGo, hp, he]⟩

end ReportGenerator

namespace ReportGenerator

/-! ### Shape-tree lemmas -/

theorem eraseP_id_ne (i : Nat) :
    ∀ (l : List Shape), (l.map (fun x => x.id)).Nodup →
      ∀ x ∈ l.eraseP (fun sh => sh.id == i), x.id ≠ i := by
  intro l
  induction l with
  | nil =>
    intro _ x hx
    cases hx
  | cons c t ih =>
    intro hnd x hx
    have hnd' := List.nodup_cons.mp hnd
    cases hc : (c.id == i)
    · rw [List.eraseP_cons] at hx
      simp only [hc, cond_false] at hx
      cases List.mem_cons.mp hx with
      | inl heq =>
        subst heq
        exact fun h2 => by
          rw [h2] at hc
          simp at hc
      | inr h2 => exact ih hnd'.2 x h2
    · rw [List.eraseP_cons] at hx
      simp only [hc, cond_true] at hx
      intro hxi
      have hci : c.id = i := eq_of_beq hc
      have hmm2 : x.id ∈ t.map (fun x => x.id) := List.mem_map_of_mem _ hx
      rw [hxi, ← hci] at hmm2
      exact hnd'.1 hmm2

/-! ### Hyperlink-call counting -/

theorem stepRun_count (fs : String → Bool) (content : List (String × String))
    (a : SlideSt × TextShape × Nat) (ij : Nat × Nat) :
    (stepRun fs content a ij).2.2 = a.2.2 + 1 := rfl

theorem foldl_stepRun_count (fs : String → Bool) (content : List (String × String)) :
    ∀ (l : List (Nat × Nat)) (a : SlideSt × TextShape × Nat),
      (l.foldl (stepRun fs content) a).2.2 = a.2.2 + l.length := by
  intro l
  induction l with
  | nil =>
    intro a
    simp
  | cons ij t ih =>
    intro a
    rw [List.foldl_cons, ih, stepRun_count]
    simp only [List.length_cons]
    omega

theorem runIndicesAux_length :
    ∀ (pss : List (List Run)) (i : Nat),
      (runIndicesAux i pss).length = (pss.map List.length).sum := by
  intro pss
  induction pss with
  | nil =>
    intro i
    rfl
  | cons p ps ih =>
    intro i
    simp [runIndicesAux, ih]

/-! ### Hyperlink rewriting: last matching key wins for nonempty values -/

theorem hlStep_skip {text : List Char} {k v : String}
    (hm : containsSub k.data text = false) (sh : TextShape) :
    hlStep text sh (k, v) = sh := by
  unfold hlStep
  simp [hm]

theorem hlStep_true {text : List Char} {k v : String}
    (hm : containsSub k.data text = true) (hv : v.isEmpty = false) (sh : TextShape) :
    hlStep text sh (k, v) = hlFinal v sh := by
  unfold hlStep hlFinal
  simp only [hm, if_true]
  cases hch : sh.clickIsHyperlink <;>
    simp [hch, setAddr, rewriteRun, hv]

theorem rewriteRun_again {v v' : String} (hv' : v'.isEmpty = false) (r : Run) :
    rewriteRun v (if addrTruthy r.hlAddress then { r with hlAddress := some v' } else r)
      = if addrTruthy r.hlAddress then { r with hlAddress := setAddr v } else r := by
  cases ht : addrTruthy r.hlAddress
  · simp only [ht, Bool.false_eq_true, if_false]
    unfold rewriteRun
    simp [ht]
  · simp only [ht, if_true]
    unfold rewriteRun
    simp [addrTruthy, hv']

theorem hlStep_final {text : List Char} {k v v' : String}
    (hm : containsSub k.data text = true) (hv : v.isEmpty = false)
    (hv' : v'.isEmpty = false) (sh : TextShape) :
    hlStep text (hlFinal v' sh) (k, v) = hlFinal v sh := by
  unfold hlStep hlFinal
  simp only [hm, if_true]
  have hfun : ∀ r : Run,
      rewriteRun v (if addrTruthy r.hlAddress then { r with hlAddress := some v' } else r)
        = if addrTruthy r.hlAddress then { r with hlAddress := some v } else r := by
    intro r
    rw [rewriteRun_again hv']
    simp [setAddr, hv]
  cases hch : sh.clickIsHyperlink <;>
    simp [hch, setAddr, hv, List.map_map, Function.comp, hfun]

theorem hl_fold (text : List Char) :
    ∀ (content : List (String × String)) (sh : TextShape),
      (∀ kv ∈ content, kv.2.isEmpty = false) →
      content.foldl (hlStep text) sh
        = match content.reverse.find? (fun kv => containsSub kv.1.data text) with
          | none => sh
          | some kv => hlFinal kv.2 sh := by
  intro content
  induction content using List.reverseRecOn with
  | nil =>
    intro sh h
    rfl
  | append_singleton l kv ih =>
    intro sh h
    have hl : ∀ kv' ∈ l, kv'.2.isEmpty = false :=
      fun kv' hmem => h kv' (List.mem_append_left _ hmem)
    have hkv : kv.2.isEmpty = false := h kv (by simp)
    rw [List.foldl_append, List.foldl_cons, List.foldl_nil, ih sh hl]
    have hrev : (l ++ [kv]).reverse = kv :: l.reverse := by
      simp
    rw [hrev]
    cases hfind : l.reverse.find? (fun kv' => containsSub kv'.1.data text) with
    | none =>
      cases hm : containsSub kv.1.data text with
      | false =>
        obtain ⟨k0, v0⟩ := kv
        rw [hlStep_skip hm]
        simp [List.find?, hm, hfind]
      | true =>
        obtain ⟨k0, v0⟩ := kv
        rw [hlStep_true hm hkv]
        simp [List.find?, hm]
    | some kv' =>
      have hv' : kv'.2.isEmpty = false := by
        have hmem : kv' ∈ l.reverse := List.mem_of_find?_eq_some hfind
        exact hl kv' (List.mem_reverse.mp hmem)
      cases hm : containsSub kv.1.data text with
      | false =>
        obtain ⟨k0, v0⟩ := kv
        rw [hlStep_skip hm]
        simp [List.find?, hm, hfind]
      | true =>
        obtain ⟨k0, v0⟩ := kv
        rw [hlStep_final hm hkv hv']
        simp [List.find?, hm]

end ReportGenerator

namespace ReportGenerator

/-! ### Claim theorems -/

/-- C1: for every text run and content mapping, a `{{token}}` whose trimmed
inner name does not end with an image extension is replaced by the mapped
string when the name is a key of the content mapping, and the original token
text (braces included) is left unchanged when the name is absent; in
particular run text `"Hi {{missing}}"` with empty content stays literally
`"Hi {{missing}}"` and leaves the slide state untouched. -/
theorem claim_C1_literal_token_substitution :
    (∀ (fs : String → Bool) (content : List (String × String)) (sh : Shape)
        (st : SlideSt) (raw inner : String),
      hasImageExt (pyStrip inner) = false →
      replace_text_or_image fs content sh st raw inner
        = (st, (dget content (pyStrip inner)).getD raw))
    ∧ (∀ (fs : String → Bool) (sh : Shape) (st : SlideSt),
      subRunText fs [] sh st "Hi {{missing}}" = (st, "Hi {{missing}}")) := by
  constructor
  · intro fs content sh st raw inner h
    unfold replace_text_or_image
    simp [h]
  · intro fs sh st
    rfl

/-- Witness for C1 at concrete inputs. -/
theorem claim_C1_witness :
    hasImageExt (pyStrip "missing") = false ∧
    replace_text_or_image (fun _ => false) [] ⟨0, 0, 0, 0, 0, false, none⟩ ⟨[], 0⟩
        "{{missing}}" "missing" = (⟨[], 0⟩, "{{missing}}") ∧
    subRunText (fun _ => false) [] ⟨0, 0, 0, 0, 0, false, none⟩ ⟨[], 0⟩
        "Hi {{missing}}" = (⟨[], 0⟩, "Hi {{missing}}") := by
  refine ⟨by decide, ?_, ?_⟩
  · exact claim_C1_literal_token_substitution.1 (fun _ => false) [] _ _ _ _ (by decide)
  · exact claim_C1_literal_token_substitution.2 (fun _ => false) _ _

/-- C2: a text-run token whose trimmed inner name case-insensitively ends with
`.png`, `.jpg`, `.jpeg` or `.gif` resolves `content.get(name, raw)` as an image
path: if that path is a file, the owning shape is swapped
(`_replace_image_placeholder`) and the token contributes the empty string; if
it is not, the original `{{token}}` text is kept, no error is raised, and the
slide state (hence the shape tree) is unchanged. -/
theorem claim_C2_image_token_rule :
    ∀ (fs : String → Bool) (content : List (String × String)) (sh : Shape)
      (st : SlideSt) (raw inner : String),
      hasImageExt (pyStrip inner) = true →
      (fs ((dget content (pyStrip inner)).getD raw) = true →
        replace_text_or_image fs content sh st raw inner
          = (replace_image_placeholder st sh
              ((dget content (pyStrip inner)).getD raw), "")) ∧
      (fs ((dget content (pyStrip inner)).getD raw) = false →
        replace_text_or_image fs content sh st raw inner = (st, raw)) := by
  intro fs content sh st raw inner h
  constructor
  · intro hfs
    unfold replace_text_or_image
    simp [h, hfs]
  · intro hfs
    unfold replace_text_or_image
    simp [h, hfs]

/-- Witness for C2: the mapped path exists (swap and empty string) and the
mapped path does not exist (token kept, state unchanged). -/
theorem claim_C2_witness :
    hasImageExt (pyStrip "photo.png") = true ∧
    replace_text_or_image (fun p => p == "/tmp/exists.png")
        [("photo.png", "/tmp/exists.png")] ⟨0, 1, 2, 3, 4, false, none⟩
        ⟨[⟨0, 1, 2, 3, 4, false, none⟩], 5⟩ "{{photo.png}}" "photo.png"
      = (replace_image_placeholder ⟨[⟨0, 1, 2, 3, 4, false, none⟩], 5⟩
          ⟨0, 1, 2, 3, 4, false, none⟩ "/tmp/exists.png", "") ∧
    replace_text_or_image (fun _ => false) [("photo.png", "/tmp/exists.png")]
        ⟨0, 1, 2, 3, 4, false, none⟩ ⟨[⟨0, 1, 2, 3, 4, false, none⟩], 5⟩
        "{{photo.png}}" "photo.png"
      = (⟨[⟨0, 1, 2, 3, 4, false, none⟩], 5⟩, "{{photo.png}}") := by
  refine ⟨by decide, ?_, ?_⟩
  · exact (claim_C2_image_token_rule _ _ _ _ _ _ (by decide)).1 (by decide)
  · exact (claim_C2_image_token_rule _ _ _ _ _ _ (by decide)).2 (by decide)

/-- C3: `_replace_image_placeholder` appends a new picture shape with exactly
the original shape's left, top, width and height, removes the original shape
from the shape tree (under distinct shape identities and a fresh id supply),
and the picture is appended at the end of the tree. -/
theorem claim_C3_image_swap_geometry :
    ∀ (st : SlideSt) (sh : Shape) (path : String),
      sh ∈ st.shapes →
      (∀ x ∈ st.shapes, x.id < st.nextId) →
      (st.shapes.map (fun x => x.id)).Nodup →
      replace_image_placeholder st sh path
        = ⟨st.shapes.eraseP (fun x => x.id == sh.id)
            ++ [mkPicture st.nextId path sh.left sh.top sh.width sh.height],
           st.nextId + 1⟩
      ∧ sh ∉ (replace_image_placeholder st sh path).shapes := by
  intro st sh path hmem hlt hnd
  have hp : (fun x : Shape => x.id == sh.id) sh = true := by simp
  have heq : replace_image_placeholder st sh path
      = ⟨st.shapes.eraseP (fun x => x.id == sh.id)
          ++ [mkPicture st.nextId path sh.left sh.top sh.width sh.height],
         st.nextId + 1⟩ := by
    unfold replace_image_placeholder removeShape add_picture
    simp only
    rw [@List.eraseP_append_left Shape (fun x => x.id == sh.id) sh hp st.shapes
      [mkPicture st.nextId path sh.left sh.top sh.width sh.height] hmem]
  refine ⟨heq, ?_⟩
  rw [heq]
  intro hcon
  cases List.mem_append.mp hcon with
  | inl h1 =>
    exact (eraseP_id_ne sh.id st.shapes hnd sh h1) rfl
  | inr h2 =>
    have hsh : sh = mkPicture st.nextId path sh.left sh.top sh.width sh.height := by
      simpa using h2
    have hid : sh.id = st.nextId := by
      rw [hsh]
      rfl
    have := hlt sh hmem
    omega

/-- Witness for C3 at a concrete two-shape slide. -/
theorem claim_C3_witness :
    (⟨7, 10, 20, 30, 40, false, none⟩ : Shape)
        ∈ ([⟨7, 10, 20, 30, 40, false, none⟩, ⟨3, 0, 0, 0, 0, false, none⟩] : List Shape) ∧
    replace_image_placeholder
        ⟨[⟨7, 10, 20, 30, 40, false, none⟩, ⟨3, 0, 0, 0, 0, false, none⟩], 8⟩
        ⟨7, 10, 20, 30, 40, false, none⟩ "/img.png"
      = ⟨[⟨3, 0, 0, 0, 0, false, none⟩, ⟨8, 10, 20, 30, 40, true, some "/img.png"⟩], 9⟩ ∧
    (⟨7, 10, 20, 30, 40, false, none⟩ : Shape)
        ∉ (replace_image_placeholder
            ⟨[⟨7, 10, 20, 30, 40, false, none⟩, ⟨3, 0, 0, 0, 0, false, none⟩], 8⟩
            ⟨7, 10, 20, 30, 40, false, none⟩ "/img.png").shapes := by
  refine ⟨by decide, ?_, ?_⟩
  · exact (claim_C3_image_swap_geometry _ _ "/img.png"
      (by decide) (by decide) (by decide)).1
  · exact (claim_C3_image_swap_geometry _ _ "/img.png"
      (by decide) (by decide) (by decide)).2

end ReportGenerator

namespace ReportGenerator

/-- C4: on a successful load the records appear one per distinct slide number
in first-seen input order, and for every slide record, `content` maps each
placeholder to the value of the last input row with that `(slide_num,
placeholder)` pair, while `images` maps each index to the path of the last row
that wrote it (digits-only placeholder with an existing file as value). -/
theorem claim_C4_last_write_wins :
    ∀ (fs : String → Bool) (rows : List RawRow) (recs : List SlideData),
      load_slide_data fs rows = .ok recs →
      recs.map (fun d => d.slide_num) = seenSlides rows ∧
      ∀ (s : Int) (rec : SlideData), recAt recs s = some rec →
        (∀ p : String, dget rec.content p = lastContent rows s p) ∧
        (∀ k : Nat, dget rec.images k = lastImage fs rows s k) := by
  intro fs rows recs h
  refine ⟨load_slides_eq h, ?_⟩
  intro s rec hr
  exact ⟨fun p => load_content_eq h hr p, fun k => load_images_eq h hr k⟩

/-- Witness for C4: two rows with identical `(slide_num, placeholder)` and
different values; the loaded content and images both hold the later value. -/
theorem claim_C4_witness :
    load_slide_data (fun _ => true)
        [⟨"1", "3", some "/f1.png"⟩, ⟨"1", "3", some "/f2.png"⟩]
      = .ok [{ slide_num := 1, content := [("3", "/f2.png")],
               images := [(3, "/f2.png")] }] ∧
    dget [("3", "/f2.png")] "3"
      = lastContent [⟨"1", "3", some "/f1.png"⟩, ⟨"1", "3", some "/f2.png"⟩] 1 "3" ∧
    lastContent [⟨"1", "3", some "/f1.png"⟩, ⟨"1", "3", some "/f2.png"⟩] 1 "3"
      = some "/f2.png" ∧
    dget [((3 : Nat), "/f2.png")] 3
      = lastImage (fun _ => true)
          [⟨"1", "3", some "/f1.png"⟩, ⟨"1", "3", some "/f2.png"⟩] 1 3 ∧
    lastImage (fun _ => true)
        [⟨"1", "3", some "/f1.png"⟩, ⟨"1", "3", some "/f2.png"⟩] 1 3
      = some "/f2.png" := by
  refine ⟨rfl, ?_, rfl, ?_, rfl⟩
  · exact ((claim_C4_last_write_wins (fun _ => true)
      [⟨"1", "3", some "/f1.png"⟩, ⟨"1", "3", some "/f2.png"⟩]
      [{ slide_num := 1, content := [("3", "/f2.png")], images := [(3, "/f2.png")] }]
      rfl).2 1
      { slide_num := 1, content := [("3", "/f2.png")], images := [(3, "/f2.png")] }
      rfl).1 "3"
  · exact ((claim_C4_last_write_wins (fun _ => true)
      [⟨"1", "3", some "/f1.png"⟩, ⟨"1", "3", some "/f2.png"⟩]
      [{ slide_num := 1, content := [("3", "/f2.png")], images := [(3, "/f2.png")] }]
      rfl).2 1
      { slide_num := 1, content := [("3", "/f2.png")], images := [(3, "/f2.png")] }
      rfl).2 3

/-- C5 counterexample: the claimed invariant "every key `k` of `images` has
`content[str(k)]` holding the same path" fails when a later row overwrites a
digits placeholder with a non-file value: `images[3]` keeps `/a.png` while
`content["3"]` becomes `/b.txt`. -/
theorem claim_C5_counterexample :
    load_slide_data (fun p => p == "/a.png")
        [⟨"1", "3", some "/a.png"⟩, ⟨"1", "3", some "/b.txt"⟩]
      = .ok [{ slide_num := 1, content := [("3", "/b.txt")],
               images := [(3, "/a.png")] }] ∧
    dget [((3 : Nat), "/a.png")] 3 = some "/a.png" ∧
    dget [("3", "/b.txt")] "3" = some "/b.txt" ∧
    ("/a.png" : String) ≠ "/b.txt" := by
  refine ⟨rfl, rfl, rfl, by decide⟩

/-- C5 (amended): every `images` entry comes from a row whose placeholder is
digits-only and whose value was a file at load time, and its key corresponds
to a digits-only placeholder string that is still a key of `content`; but
`content` need not hold the same path (a later row may overwrite it), and the
substitution pass, which only reads the record, leaves it unchanged by
construction in this functional model. -/
theorem claim_C5_images_invariant :
    ∀ (fs : String → Bool) (rows : List RawRow) (recs : List SlideData) (s : Int)
      (rec : SlideData) (k : Nat) (v : String),
      load_slide_data fs rows = .ok recs →
      recAt recs s = some rec →
      dget rec.images k = some v →
      fs v = true ∧
      ∃ p : String, isdigitStr p = true ∧ digitsToNat p = k ∧
        (dget rec.content p).isSome := by
  intro fs rows recs s rec k v h hr himg
  rw [load_images_eq h hr] at himg
  unfold lastImage at himg
  cases hf : rows.reverse.find? (imgPred fs s k) with
  | none =>
    rw [hf] at himg
    cases himg
  | some r =>
    rw [hf] at himg
    simp only [Option.map_some'] at himg
    have hpred : imgPred fs s k r = true := List.find?_some hf
    unfold imgPred at hpred
    simp only [Bool.and_eq_true] at hpred
    obtain ⟨hrow, ⟨hfs, hdig⟩, hk⟩ := hpred
    have hv : rowVal r = v := by injection himg
    refine ⟨by rw [← hv]; exact hfs, r.placeholder, hdig, eq_of_beq hk, ?_⟩
    rw [load_content_eq h hr]
    unfold lastContent
    have hmem : r ∈ rows.reverse := List.mem_of_find?_eq_some hf
    have hiso : (rows.reverse.find?
        (fun r' => rowOnSlide s r' && (r'.placeholder == r.placeholder))).isSome := by
      rw [List.find?_isSome]
      exact ⟨r, hmem, by simp [hrow]⟩
    obtain ⟨x, hx⟩ := Option.isSome_iff_exists.mp hiso
    rw [hx]
    rfl

/-- Witness for C5 (amended), applied at the counterexample input. -/
theorem claim_C5_witness :
    ((fun p => p == "/a.png") "/a.png") = true :=
  (claim_C5_images_invariant (fun p => p == "/a.png")
    [⟨"1", "3", some "/a.png"⟩, ⟨"1", "3", some "/b.txt"⟩]
    [{ slide_num := 1, content := [("3", "/b.txt")], images := [(3, "/a.png")] }]
    1 { slide_num := 1, content := [("3", "/b.txt")], images := [(3, "/a.png")] }
    3 "/a.png" rfl rfl rfl).1

/-- C6 counterexample: a shape with one paragraph of two runs triggers
`_identify_and_replace_hyperlink` twice, not exactly once. -/
theorem claim_C6_counterexample :
    (replace_text_placeholders (fun _ => false) [] ⟨[], 0⟩
        ⟨⟨0, 0, 0, 0, 0, false, none⟩, false, none,
          [[⟨"x", none⟩, ⟨"y", none⟩]]⟩).2.2 = 2 ∧ (2 : Nat) ≠ 1 :=
  ⟨rfl, by decide⟩

/-- C6 (amended): `_replace_text_placeholders` triggers
`_identify_and_replace_hyperlink` once per run iteration — a shape whose
paragraphs hold `n` runs in total triggers it exactly `n` times (so zero times
for a shape with no runs, not once per shape). -/
theorem claim_C6_hyperlink_once_per_run :
    ∀ (fs : String → Bool) (content : List (String × String)) (st : SlideSt)
      (sh : TextShape),
      (replace_text_placeholders fs content st sh).2.2
        = (sh.paragraphs.map List.length).sum := by
  intro fs content st sh
  unfold replace_text_placeholders runIndices
  rw [foldl_stepRun_count, runIndicesAux_length]
  simp

/-- C7 counterexample: with content insertion order `[("a", ""), ("b", "X")]`
and shape text `"ab"`, both keys match, yet the run's final inline address is
`none` rather than the last key's value `"X"`: the empty value cleared the
address and the later key skipped the run. -/
theorem claim_C7_counterexample :
    lastMatch [("a", ""), ("b", "X")]
        (shapeTextData ([[⟨"ab", some "http://old"⟩]] : List (List Run)))
      = some ("b", "X") ∧
    addrTruthy (some "http://old") = true ∧
    identify_and_replace_hyperlink [("a", ""), ("b", "X")]
        ⟨⟨0, 0, 0, 0, 0, false, none⟩, false, none, [[⟨"ab", some "http://old"⟩]]⟩
      = ⟨⟨0, 0, 0, 0, 0, false, none⟩, false, none, [[⟨"ab", none⟩]]⟩ ∧
    (none : Option String) ≠ some "X" := by
  refine ⟨rfl, rfl, rfl, by decide⟩

/-- C7 (amended): for every shape and content mapping whose values are all
nonempty, every `(key, value)` pair whose key is a literal substring of the
shape's visible text rewrites the shape-level click-action address (when the
click action is a hyperlink) and every run-level address that is truthy, and
the last matching key in content insertion order determines the final
addresses; with no matching key the shape is unchanged.  (An empty value
instead clears the addresses it touches and later matching keys then skip
those runs, as the counterexample shows.) -/
theorem claim_C7_hyperlink_last_key :
    ∀ (content : List (String × String)) (sh : TextShape),
      (∀ kv ∈ content, kv.2.isEmpty = false) →
      (lastMatch content (shapeTextData sh.paragraphs) = none →
        identify_and_replace_hyperlink content sh = sh) ∧
      (∀ k v : String,
        lastMatch content (shapeTextData sh.paragraphs) = some (k, v) →
        identify_and_replace_hyperlink content sh = hlFinal v sh) := by
  intro content sh h
  have hfold := hl_fold (shapeTextData sh.paragraphs) content sh h
  constructor
  · intro hnone
    unfold identify_and_replace_hyperlink
    rw [hfold]
    unfold lastMatch at hnone
    rw [hnone]
  · intro k v hsome
    unfold identify_and_replace_hyperlink
    rw [hfold]
    unfold lastMatch at hsome
    rw [hsome]

/-- Witness for C7 (amended): two matching keys with nonempty values; the
last one wins at shape level and run level. -/
theorem claim_C7_witness :
    lastMatch [("a", "L1"), ("b", "L2")]
        (shapeTextData ([[⟨"ab", some "http://old"⟩, ⟨"c", none⟩]] : List (List Run)))
      = some ("b", "L2") ∧
    identify_and_replace_hyperlink [("a", "L1"), ("b", "L2")]
        ⟨⟨0, 0, 0, 0, 0, false, none⟩, true, some "orig",
          [[⟨"ab", some "http://old"⟩, ⟨"c", none⟩]]⟩
      = hlFinal "L2"
          ⟨⟨0, 0, 0, 0, 0, false, none⟩, true, some "orig",
            [[⟨"ab", some "http://old"⟩, ⟨"c", none⟩]]⟩ := by
  refine ⟨rfl, ?_⟩
  exact (claim_C7_hyperlink_last_key [("a", "L1"), ("b", "L2")]
    ⟨⟨0, 0, 0, 0, 0, false, none⟩, true, some "orig",
      [[⟨"ab", some "http://old"⟩, ⟨"c", none⟩]]⟩ (by decide)).2 "b" "L2" rfl

end ReportGenerator

namespace ReportGenerator

/-- C8: table-cell substitution uses the literal-text rule only: each token is
replaced by its mapped content value or left unchanged when absent, the
dispatch for a table shape passes the slide state through untouched for every
state, content and table (the source method receives no slide reference), and
a value that is an existing image path is inserted as literal text — no
picture shape is added and no shape is removed. -/
theorem claim_C8_table_cells_literal :
    (∀ (st : SlideSt) (content : List (String × String)) (tbl : List (List Cell)),
      (processTableShape st content tbl).1 = st) ∧
    (∀ (content : List (String × String)) (raw inner : String),
      replace_text content raw inner = (dget content (pyStrip inner)).getD raw) ∧
    subCellText [("photo.png", "/tmp/exists.png")] "{{photo.png}}"
      = "/tmp/exists.png" ∧
    processTableShape ⟨[⟨0, 1, 2, 3, 4, false, none⟩], 5⟩
        [("photo.png", "/tmp/exists.png")] [[[["{{photo.png}}"]]]]
      = (⟨[⟨0, 1, 2, 3, 4, false, none⟩], 5⟩, [[[["/tmp/exists.png"]]]]) :=
  ⟨fun _ _ _ => rfl, fun _ _ _ => rfl, rfl, rfl⟩

/-- C9: a row whose `slide_num` cell does not parse as an integer makes
loading fail with an error (modelling the uncaught `ValueError`; no record
list — hence no document mutation — is produced), while a row with a missing
`value` is not an error: it is normalized to the empty string in the loaded
content mapping. -/
theorem claim_C9_loader_errors :
    ∀ (fs : String → Bool) (rows : List RawRow),
      ((∃ r ∈ rows, pyInt? r.slide_num = none) →
        ∃ e, load_slide_data fs rows = .error e) ∧
      (∀ (recs : List SlideData) (s : Int) (rec : SlideData) (p : String)
          (r : RawRow),
        load_slide_data fs rows = .ok recs →
        recAt recs s = some rec →
        rows.reverse.find? (fun r' => rowOnSlide s r' && (r'.placeholder == p))
          = some r →
        r.value = none →
        dget rec.content p = some "") := by
  intro fs rows
  constructor
  · intro h
    exact loadGo_error fs rows h []
  · intro recs s rec p r h hr hfind hval
    rw [load_content_eq h hr]
    unfold lastContent
    rw [hfind]
    simp [rowVal, hval]

/-- Witness for C9: a non-integer slide number aborts the load; a missing
value loads as the empty string. -/
theorem claim_C9_witness :
    (load_slide_data (fun _ => false) [⟨"abc", "k", some "v"⟩]).isOk = false ∧
    dget [("k", "")] "k" = some "" := by
  constructor
  · obtain ⟨e, he⟩ := (claim_C9_loader_errors (fun _ => false)
      [⟨"abc", "k", some "v"⟩]).1 ⟨⟨"abc", "k", some "v"⟩, by simp, rfl⟩
    rw [he]
    rfl
  · exact (claim_C9_loader_errors (fun _ => false) [⟨"1", "k", none⟩]).2
      [{ slide_num := 1, content := [("k", "")], images := [] }] 1
      { slide_num := 1, content := [("k", "")], images := [] } "k"
      ⟨"1", "k", none⟩ rfl rfl rfl rfl

/-- C10: a text-run token with an image-extension name that is absent from the
content mapping uses the raw braced token text itself as the candidate image
path: the swap fires exactly when a file named by that literal braced string
exists, so absence from the mapping alone does not guarantee the token is left
unchanged. -/
theorem claim_C10_unmapped_image_token :
    ∀ (fs : String → Bool) (content : List (String × String)) (sh : Shape)
      (st : SlideSt) (raw inner : String),
      hasImageExt (pyStrip inner) = true →
      dget content (pyStrip inner) = none →
      (fs raw = true →
        replace_text_or_image fs content sh st raw inner
          = (replace_image_placeholder st sh raw, "")) ∧
      (fs raw = false →
        replace_text_or_image fs content sh st raw inner = (st, raw)) := by
  intro fs content sh st raw inner h hnone
  constructor
  · intro hfs
    unfold replace_text_or_image
    simp [h, hnone, hfs]
  · intro hfs
    unfold replace_text_or_image
    simp [h, hnone, hfs]

/-- Witness for C10: `photo.png` is unmapped, yet a filesystem on which the
literal path `{{photo.png}}` exists makes the swap fire; on a filesystem
without it the token stays. -/
theorem claim_C10_witness :
    hasImageExt (pyStrip "photo.png") = true ∧
    dget ([] : List (String × String)) (pyStrip "photo.png") = none ∧
    replace_text_or_image (fun p => p == "{{photo.png}}") []
        ⟨0, 1, 2, 3, 4, false, none⟩ ⟨[⟨0, 1, 2, 3, 4, false, none⟩], 5⟩
        "{{photo.png}}" "photo.png"
      = (replace_image_placeholder ⟨[⟨0, 1, 2, 3, 4, false, none⟩], 5⟩
          ⟨0, 1, 2, 3, 4, false, none⟩ "{{photo.png}}", "") ∧
    replace_text_or_image (fun _ => false) [] ⟨0, 1, 2, 3, 4, false, none⟩
        ⟨[⟨0, 1, 2, 3, 4, false, none⟩], 5⟩ "{{photo.png}}" "photo.png"
      = (⟨[⟨0, 1, 2, 3, 4, false, none⟩], 5⟩, "{{photo.png}}") := by
  refine ⟨by decide, rfl, ?_, ?_⟩
  · exact (claim_C10_unmapped_image_token (fun p => p == "{{photo.png}}") []
      ⟨0, 1, 2, 3, 4, false, none⟩ ⟨[⟨0, 1, 2, 3, 4, false, none⟩], 5⟩
      "{{photo.png}}" "photo.png" (by decide) rfl).1 (by decide)
  · exact (claim_C10_unmapped_image_token (fun _ => false) []
      ⟨0, 1, 2, 3, 4, false, none⟩ ⟨[⟨0, 1, 2, 3, 4, false, none⟩], 5⟩
      "{{photo.png}}" "photo.png" (by decide) rfl).2 (by decide)

end ReportGenerator
